import Mathlib

/-
Shallow embedding of the core of the ai-schedule-web repository:
src/lib/dataStore.ts (offline-tolerant user record store and its pure
mutation helpers) and src/lib/notificationScheduler.ts (client-side
notification scheduler with a recurring nag escalation).

Conventions of the embedding:
- ISO calendar dates (the "YYYY-MM-DD" prefix of Date.toISOString) are
  modelled as Int day numbers; two timestamps share that prefix iff they
  denote the same day number, and the calendar day before day d is d - 1
  (the source computes it as Date.now() minus 86400000 ms).
- Millisecond instants (Date.now(), scheduledAt) are modelled as Int.
- JS objects used as string- or date-keyed maps are modelled as functions
  into Option; a missing key is none.
- The wall clock is passed explicitly: every function that reads new Date()
  in the source takes the corresponding value as an argument.
- Fallible remote I/O is modelled by an explicit outcome datatype; the
  source collapses every failure mode to null inside fetchFromServer.
-/

inductive Role where
  | user
  | assistant
deriving DecidableEq

structure ChatMessage where
  role : Role
  content : String
deriving DecidableEq

/-- The access channel of a session: "web" | "line". -/
inductive Source where
  | web
  | line
deriving DecidableEq

/-- One element of UserData.sessions. The source stores a full ISO
timestamp; only its calendar-day prefix is ever inspected
(timestamp.startsWith(today)), so the embedding keeps the day number. -/
structure Session where
  id : String
  day : Int
  source : Source
  messages : List ChatMessage
deriving DecidableEq

structure CategoryStat where
  totalMinutes : Nat
  sessions : Nat
deriving DecidableEq

structure Stats where
  studyMinutes : Int → Option Nat
  streaks : Nat
  lastActiveDate : Int
  categories : String → Option CategoryStat

inductive Category where
  | study
  | exercise
  | hobby
  | other
deriving DecidableEq

inductive TaskStatus where
  | pending
  | active
  | done
  | skipped
deriving DecidableEq

/-- Task from dataStore.ts (named UserTask because Task is taken by the Lean core). startTime is an optional "HH:MM" wall-clock
string in the source; the embedding keeps it in parsed form as the
(hours, minutes) pair produced by startTime.split(":").map(Number). -/
structure UserTask where
  id : String
  title : String
  category : Category
  startTime : Option (Nat × Nat)
  duration : Nat
  status : TaskStatus
  createdAt : String
deriving DecidableEq

structure Schedule where
  today : List UserTask
  weekly : String → Option (List UserTask)

/-- Timer phase: "work" | "break" (the break phase is named rest here
because break is a reserved word). -/
inductive Phase where
  | work
  | rest
deriving DecidableEq

structure TimerState where
  taskId : Option String
  taskTitle : Option String
  startedAt : Option String
  duration : Nat
  phase : Phase
  isRunning : Bool
deriving DecidableEq

structure Profile where
  name : String
  goals : List String
  createdAt : String
deriving DecidableEq

/-- The per-user record of dataStore.ts. -/
structure UserData where
  userId : String
  lineUserId : Option String
  profile : Profile
  schedule : Schedule
  sessions : List Session
  stats : Stats
  timer : TimerState
  updatedAt : String

/-- createDefaultUserData(userId). today is the calendar day and nowIso the
full timestamp of the single instant the source reads from new Date(). -/
def createDefaultUserData (userId : String) (today : Int) (nowIso : String) : UserData :=
  { userId := userId
    lineUserId := none
    profile := { name := "ユーザー", goals := ["勉強習慣をつける"], createdAt := nowIso }
    schedule := { today := [], weekly := fun _ => none }
    sessions := []
    stats :=
      { studyMinutes := fun _ => none
        streaks := 0
        lastActiveDate := today
        categories := fun _ => none }
    timer :=
      { taskId := none, taskTitle := none, startedAt := none
        duration := 25, phase := Phase.work, isRunning := false }
    updatedAt := nowIso }

/-- addStudyTime(data, minutes, category). today is the calendar day of the
call instant; the source computes yesterday as the day of
Date.now() - 86400000, i.e. today - 1. -/
def addStudyTime (data : UserData) (minutes : Nat) (category : String) (today : Int) : UserData :=
  let yesterday : Int := today - 1
  let sm := data.stats.studyMinutes
  let cur : CategoryStat := (data.stats.categories category).getD ⟨0, 0⟩
  let streaksUpd : Nat :=
    if data.stats.lastActiveDate = yesterday then data.stats.streaks + 1
    else if data.stats.lastActiveDate ≠ today then 1
    else data.stats.streaks
  { data with
    stats :=
      { studyMinutes := fun d => if d = today then some ((sm today).getD 0 + minutes) else sm d
        streaks := streaksUpd
        lastActiveDate := today
        categories := fun c =>
          if c = category then some ⟨cur.totalMinutes + minutes, cur.sessions + 1⟩
          else data.stats.categories c } }

/-- JS Array.prototype.findIndex, with -1 rendered as none. -/
def findIndex (p : α → Bool) : List α → Option Nat
  | [] => none
  | x :: xs => if p x then some 0 else (findIndex p xs).map (· + 1)

/-- In-place update of the element at one index (sessions[idx].messages.push). -/
def modifyAt (f : α → α) : Nat → List α → List α
  | _, [] => []
  | 0, x :: xs => f x :: xs
  | n + 1, x :: xs => x :: modifyAt f n xs

/-- JS Array.prototype.slice(-n) for n > 0: the last min(n, length) elements. -/
def lastN (n : Nat) (l : List α) : List α :=
  l.drop (l.length - n)

/-- The findIndex predicate of appendMessage:
s.timestamp.startsWith(today) && s.source === source. -/
def matchesDaySrc (today : Int) (source : Source) (s : Session) : Bool :=
  s.day == today && s.source == source

/-- The session-list update inside appendMessage: find the first session of
the same calendar day and source; push the message into it if found,
otherwise push a fresh session { id: sess_<Date.now()>, timestamp: now,
source, messages: [message] }. -/
def appendToSessions (ss : List Session) (message : ChatMessage) (source : Source)
    (today : Int) (newId : String) : List Session :=
  match findIndex (matchesDaySrc today source) ss with
  | some i => modifyAt (fun s => { s with messages := s.messages ++ [message] }) i ss
  | none => ss ++ [{ id := newId, day := today, source := source, messages := [message] }]

/-- appendMessage(data, message, source); today is the calendar day of the
call instant and newId the sess_<Date.now()> identifier used when a fresh
session is created. -/
def appendMessage (data : UserData) (message : ChatMessage) (source : Source)
    (today : Int) (newId : String) : UserData :=
  { data with sessions := lastN 30 (appendToSessions data.sessions message source today newId) }

/-- getTodayMessages(data): messages of the sessions whose timestamp starts
with the current calendar day, flattened in order, last 20 kept. -/
def getTodayMessages (data : UserData) (today : Int) : List ChatMessage :=
  lastN 20 ((data.sessions.filter (fun s => s.day == today)).flatMap (fun s => s.messages))

/-- Outcome of the remote fetch inside fetchFromServer: the service URL may
be unset, the request may time out or fail on the network, the server may
answer 404 or another non-2xx status, or it may deliver a record. -/
inductive FetchOutcome where
  | noServiceUrl
  | timeout
  | networkError
  | notFound
  | httpError (status : Nat)
  | success (record : UserData)

/-- fetchFromServer(userId): every failure mode is collapsed to null by the
source (missing DATA_API_URL, 404, thrown non-2xx error, network error or
timeout caught by the catch block). -/
def fetchFromServer : FetchOutcome → Option UserData
  | FetchOutcome.success r => some r
  | _ => none

/-- writeCache(data): localStorage.setItem(CACHE_PREFIX + data.userId, data).
The cache is the map from userId to the stored record. -/
def writeCache (cache : String → Option UserData) (data : UserData) :
    String → Option UserData :=
  fun k => if k = data.userId then some data else cache k

/-- readCache(userId). -/
def readCache (cache : String → Option UserData) (userId : String) : Option UserData :=
  cache userId

/-- getUserData(userId): server first (updating the cache on success), cache
as offline fallback, null when neither has data. Returns the result
together with the cache state after the call. -/
def getUserData (outcome : FetchOutcome) (cache : String → Option UserData)
    (userId : String) : Option UserData × (String → Option UserData) :=
  match fetchFromServer outcome with
  | some serverData => (some serverData, writeCache cache serverData)
  | none =>
    match readCache cache userId with
    | some cached => (some cached, cache)
    | none => (none, cache)

/-- Notification type: "task_start" | "task_end" | "reminder" | "nag". -/
inductive NotifType where
  | task_start
  | task_end
  | reminder
  | nag
deriving DecidableEq

/-- ScheduledNotification from notificationScheduler.ts. -/
structure ScheduledNotification where
  id : String
  title : String
  body : String
  scheduledAt : Int
  tag : String
  type : NotifType
deriving DecidableEq

/-- The notification payload handed to the platform sink by fire. -/
structure FiredPayload where
  title : String
  body : String
  tag : String
  requireInteraction : Bool
deriving DecidableEq

/-- State of the NotificationScheduler instance. timers is the Map from
notification id to its live countdown, represented by the scheduled
instant; nagStartTimer and nagTimer hold the armed one-shot delay and the
recurring nag interval, each carrying the optional custom message its
callback closes over. -/
structure SchedulerState where
  timers : List (String × Int)
  nagStartTimer : Option (Option String)
  nagTimer : Option (Option String)
deriving DecidableEq

/-- The field initializers of the NotificationScheduler class. -/
def emptyScheduler : SchedulerState :=
  { timers := [], nagStartTimer := none, nagTimer := none }

/-- JS Map.prototype.set: replace the value of an existing key in place,
otherwise append the entry (preceded by clearTimeout of the old handle,
which has no counterpart on the value level). -/
def setTimer : List (String × Int) → String → Int → List (String × Int)
  | [], id, t => [(id, t)]
  | p :: rest, id, t => if p.1 == id then (id, t) :: rest else p :: setTimer rest id t

/-- this.timers.get(id): the scheduled instant of the pending countdown. -/
def lookupTimer (st : SchedulerState) (id : String) : Option Int :=
  (st.timers.find? (fun p => p.1 == id)).map (fun p => p.2)

/-- schedule(notification): no-op when the delay scheduledAt - Date.now()
is negative, otherwise cancel-and-replace the countdown for that id.
(saveToStorage only mirrors the id list to localStorage.) -/
def schedule (st : SchedulerState) (n : ScheduledNotification) (now : Int) : SchedulerState :=
  if n.scheduledAt - now < 0 then st
  else { st with timers := setTimer st.timers n.id n.scheduledAt }

/-- startAt: today with the clock fields set to the parsed "HH:MM".
dayStart is the instant of midnight of the current day. -/
def startInstant (dayStart : Int) (h m : Nat) : Int :=
  dayStart + ((h : Int) * 60 + (m : Int)) * 60000

/-- endAt = startAt + duration minutes. -/
def endInstant (startAt : Int) (duration : Nat) : Int :=
  startAt + (duration : Int) * 60 * 1000

/-- reminderAt = startAt - 5 minutes. -/
def reminderInstant (startAt : Int) : Int :=
  startAt - 5 * 60 * 1000

/-- The reminder notification of a task: id reminder_<task.id>, fired five
minutes before the start instant. -/
def reminderNotif (task : UserTask) (reminderAt : Int) : ScheduledNotification :=
  { id := "reminder_" ++ task.id
    title := "⚡ 5分後にタスク開始"
    body := "「" ++ task.title ++ "」の準備をしよう！"
    scheduledAt := reminderAt
    tag := "reminder_" ++ task.id
    type := NotifType.reminder }

/-- The start notification of a task: id start_<task.id>. -/
def startNotif (task : UserTask) (startAt : Int) : ScheduledNotification :=
  { id := "start_" ++ task.id
    title := "📚 タスク開始！"
    body := "「" ++ task.title ++ "」始めよう！(" ++ toString task.duration ++ "分)"
    scheduledAt := startAt
    tag := "task_" ++ task.id
    type := NotifType.task_start }

/-- The end notification of a task: id end_<task.id>, fired at
start + duration. -/
def endNotif (task : UserTask) (endAt : Int) : ScheduledNotification :=
  { id := "end_" ++ task.id
    title := "⏱ タスク完了！"
    body := "「" ++ task.title ++ "」お疲れ様！次は何する？"
    scheduledAt := endAt
    tag := "task_end_" ++ task.id
    type := NotifType.task_end }

/-- scheduleTask(task): nothing without a startTime; nothing when the start
instant is not in the future; otherwise a reminder (only when its instant
is still in the future), a start notification and an end notification. -/
def scheduleTask (st : SchedulerState) (task : UserTask) (now dayStart : Int) : SchedulerState :=
  match task.startTime with
  | none => st
  | some (h, m) =>
    let startAt := startInstant dayStart h m
    if startAt ≤ now then st
    else
      let endAt := endInstant startAt task.duration
      let reminderAt := reminderInstant startAt
      let st1 :=
        if reminderAt > now then schedule st (reminderNotif task reminderAt) now
        else st
      let st2 := schedule st1 (startNotif task startAt) now
      schedule st2 (endNotif task endAt) now

/-- fire(notification): silent no-op without platform permission, otherwise
exactly one notification is handed to the sink (service worker postMessage
or the Notification constructor). -/
def fire (hasPermission : Bool) (n : ScheduledNotification) : Option FiredPayload :=
  if !hasPermission then none
  else
    some
      { title := n.title
        body := n.body
        tag := n.tag
        requireInteraction := n.type == NotifType.task_start || n.type == NotifType.nag }

/-- The fixed nag message catalog of sendNag. -/
def nagCatalog : List String :=
  [ "📱 サボってない？アプリに戻ってきて！"
  , "🧠 5分だけでいいからやろう。ほら。"
  , "⏰ まだ休憩中？そろそろ再開しない？"
  , "💪 タスクが待ってるよ！今すぐ開いて！"
  , "🔥 ストリーク切れちゃうよ！急いで！"
  , "😤 さっさとやること終わらせよう！"
  , "📚 勉強サボり続けてる場合じゃないよ！" ]

/-- sendNag(customMessage): suppressed during local hours 23:00-06:00 while
leaving every timer untouched; otherwise one message is picked
(Math.floor(Math.random() * messages.length), modelled by rand modulo the
catalog length) and handed to fire. hour is new Date().getHours() and now
is Date.now() at the firing instant. Returns the scheduler state after the
call together with the delivered payload, if any. -/
def sendNag (st : SchedulerState) (hasPermission : Bool) (hour : Nat)
    (customMessage : Option String) (rand : Nat) (now : Int) :
    SchedulerState × Option FiredPayload :=
  if 23 ≤ hour ∨ hour < 6 then (st, none)
  else
    let messages :=
      match customMessage with
      | some m => [m]
      | none => nagCatalog
    let msg := messages.getD (rand % messages.length) ""
    (st,
      fire hasPermission
        { id := "nag_" ++ toString now
          title := "習慣改善パートナーより"
          body := msg
          scheduledAt := now
          tag := "nag"
          type := NotifType.nag })

/-- stopNagNotifications(): clear both nag handles unconditionally. -/
def stopNagNotifications (st : SchedulerState) : SchedulerState :=
  { st with nagTimer := none, nagStartTimer := none }

/-- startNagNotifications(customMessage): returns immediately without
permission; otherwise tears the old nag chain down and arms the 10-minute
one-shot delay (whose later expiry fires one nag and starts the 5-minute
interval). -/
def startNagNotifications (st : SchedulerState) (hasPermission : Bool)
    (customMessage : Option String) : SchedulerState :=
  if !hasPermission then st
  else
    let st1 := stopNagNotifications st
    { st1 with nagStartTimer := some customMessage }

/-- JS String.prototype.startsWith, stated on the character sequence of the
string so that it stays kernel-computable. -/
def strStartsWith (key pre : String) : Bool :=
  pre.data.isPrefixOf key.data

/-- The key filter of scheduleAllTasks: task-derived pending countdowns. -/
def isTaskKey (key : String) : Bool :=
  strStartsWith key "start_" || strStartsWith key "end_" || strStartsWith key "reminder_"

/-- scheduleAllTasks(tasks): delete exactly the task-derived countdowns,
then schedule every given task. -/
def scheduleAllTasks (st : SchedulerState) (tasks : List UserTask)
    (now dayStart : Int) : SchedulerState :=
  let cleared := { st with timers := st.timers.filter (fun p => !isTaskKey p.1) }
  tasks.foldl (fun s task => scheduleTask s task now dayStart) cleared

/- ===================== Shared example inputs ===================== -/

/-- A record as served by the remote store for user u1. -/
def exRemoteRecord : UserData :=
  { createDefaultUserData "u1" 100 "2024-04-10T08:00:00.000Z" with updatedAt := "remote" }

/-- An older record held only in the local cache for user u1. -/
def exStaleRecord : UserData :=
  { createDefaultUserData "u1" 50 "2024-02-19T08:00:00.000Z" with updatedAt := "stale" }

/-- A cache holding the stale record for u1 and nothing else. -/
def exCache : String → Option UserData :=
  fun k => if k = "u1" then some exStaleRecord else none

/-- A record with an ongoing three-day streak whose last activity was on day
19723 (2024-01-01 as a day number). -/
def exStreakRecord : UserData :=
  { createDefaultUserData "u1" 19723 "2024-01-01T09:00:00.000Z" with
    stats :=
      { studyMinutes := fun _ => none
        streaks := 3
        lastActiveDate := 19723
        categories := fun _ => none } }

/- ===================== C1 ===================== -/

/-- C1: getUserData returns the remote record and overwrites the cache entry
for that user whenever the remote fetch succeeds; on any remote failure it
returns the cache entry, leaving the cache unchanged; when neither side has
data it returns none (no default record is built), again leaving the cache
unchanged. The record served for userId carries that userId. -/
theorem getUserData_spec (outcome : FetchOutcome) (cache : String → Option UserData)
    (userId : String) :
    (∀ r : UserData, outcome = FetchOutcome.success r → r.userId = userId →
      (getUserData outcome cache userId).1 = some r ∧
      (getUserData outcome cache userId).2 userId = some r) ∧
    (fetchFromServer outcome = none →
      (∀ c : UserData, cache userId = some c →
        (getUserData outcome cache userId).1 = some c ∧
        (getUserData outcome cache userId).2 = cache) ∧
      (cache userId = none →
        (getUserData outcome cache userId).1 = none ∧
        (getUserData outcome cache userId).2 = cache)) := by
  constructor
  · rintro r rfl hid
    exact ⟨rfl, by simp [getUserData, fetchFromServer, writeCache, hid]⟩
  · intro hnone
    constructor
    · intro c hc
      simp [getUserData, hnone, readCache, hc]
    · intro hc
      simp [getUserData, hnone, readCache, hc]

/-- C1 witness: concrete success and failure runs of getUserData. -/
theorem getUserData_spec_witness :
    ((getUserData (FetchOutcome.success exRemoteRecord) exCache "u1").1 = some exRemoteRecord ∧
      (getUserData (FetchOutcome.success exRemoteRecord) exCache "u1").2 "u1"
        = some exRemoteRecord) ∧
    ((getUserData FetchOutcome.timeout exCache "u1").1 = some exStaleRecord ∧
      (getUserData FetchOutcome.timeout exCache "u1").2 = exCache) ∧
    ((getUserData FetchOutcome.noServiceUrl exCache "u2").1 = none ∧
      (getUserData FetchOutcome.noServiceUrl exCache "u2").2 = exCache) := by
  refine ⟨?_, ?_, ?_⟩
  · exact (getUserData_spec (FetchOutcome.success exRemoteRecord) exCache "u1").1
      exRemoteRecord rfl rfl
  · exact ((getUserData_spec FetchOutcome.timeout exCache "u1").2 rfl).1 exStaleRecord
      (by simp [exCache])
  · exact ((getUserData_spec FetchOutcome.noServiceUrl exCache "u2").2 rfl).2
      (by simp [exCache])

/- ===================== C2 ===================== -/

/-- C2: one addStudyTime call on calendar day D increments the streak when
lastActiveDate is the day before D, resets it to 1 when lastActiveDate is
neither D nor the day before, and keeps it on a repeated same-day call; it
always sets lastActiveDate to D, adds the minutes to studyMinutes[D]
(from 0 when absent) and bumps the category accumulator (created as zeros
when absent). -/
theorem addStudyTime_spec (data : UserData) (minutes : Nat) (category : String) (D : Int) :
    ((addStudyTime data minutes category D).stats.lastActiveDate = D) ∧
    (((addStudyTime data minutes category D).stats.studyMinutes D).getD 0
      = (data.stats.studyMinutes D).getD 0 + minutes) ∧
    ((addStudyTime data minutes category D).stats.categories category
      = some ⟨((data.stats.categories category).getD ⟨0, 0⟩).totalMinutes + minutes,
              ((data.stats.categories category).getD ⟨0, 0⟩).sessions + 1⟩) ∧
    (data.stats.lastActiveDate = D - 1 →
      (addStudyTime data minutes category D).stats.streaks = data.stats.streaks + 1) ∧
    (data.stats.lastActiveDate ≠ D - 1 → data.stats.lastActiveDate ≠ D →
      (addStudyTime data minutes category D).stats.streaks = 1) ∧
    (data.stats.lastActiveDate = D →
      (addStudyTime data minutes category D).stats.streaks = data.stats.streaks) := by
  refine ⟨rfl, by simp [addStudyTime], by simp [addStudyTime], ?_, ?_, ?_⟩
  · intro h
    simp [addStudyTime, h]
  · intro h1 h2
    simp [addStudyTime, h1, h2]
  · intro h
    simp [addStudyTime, h]
    omega

/-- C2 witness: the spec example, from lastActiveDate 19723 (2024-01-01) and
streak 3, studying 30 minutes on day 19724 (2024-01-02). -/
theorem addStudyTime_spec_witness :
    (addStudyTime exStreakRecord 30 "study" 19724).stats.streaks = 4 ∧
    (addStudyTime exStreakRecord 30 "study" 19724).stats.lastActiveDate = 19724 ∧
    ((addStudyTime exStreakRecord 30 "study" 19724).stats.studyMinutes 19724).getD 0 = 30 ∧
    (addStudyTime exStreakRecord 30 "study" 19724).stats.categories "study" = some ⟨30, 1⟩ := by
  have h := addStudyTime_spec exStreakRecord 30 "study" 19724
  refine ⟨?_, h.1, ?_, ?_⟩
  · simpa [exStreakRecord] using h.2.2.2.1 (by decide)
  · simpa [exStreakRecord, createDefaultUserData] using h.2.1
  · simpa [exStreakRecord, createDefaultUserData] using h.2.2.1

/- ===================== C9 ===================== -/

/-- C9: a nag firing inside the local-clock quiet window 23:00-06:00 shows
nothing and leaves the scheduler state (so the recurring interval) intact;
outside the window, with permission granted, it delivers exactly one
notification while still leaving the state intact. -/
theorem sendNag_spec (st : SchedulerState) (perm : Bool) (hour : Nat)
    (custom : Option String) (rand : Nat) (now : Int) :
    ((23 ≤ hour ∨ hour < 6) → sendNag st perm hour custom rand now = (st, none)) ∧
    (6 ≤ hour → hour < 23 →
      (sendNag st perm hour custom rand now).1 = st ∧
      (perm = true →
        ∃ p : FiredPayload, (sendNag st perm hour custom rand now).2 = some p)) := by
  constructor
  · intro h
    simp [sendNag, h]
  · intro h1 h2
    have hq : ¬(23 ≤ hour ∨ hour < 6) := by omega
    refine ⟨by simp [sendNag, hq], ?_⟩
    rintro rfl
    simp only [sendNag, if_neg hq, fire, Bool.not_true, Bool.false_eq_true, if_false]
    exact ⟨_, rfl⟩

/-- C9 witness: a nag firing at local hour 2 is suppressed with the state
untouched; a firing at hour 10 with permission delivers one notification. -/
theorem sendNag_spec_witness :
    sendNag emptyScheduler true 2 none 0 0 = (emptyScheduler, none) ∧
    (sendNag emptyScheduler true 10 none 0 0).1 = emptyScheduler ∧
    (∃ p : FiredPayload, (sendNag emptyScheduler true 10 none 0 0).2 = some p) := by
  refine ⟨?_, ?_, ?_⟩
  · exact (sendNag_spec emptyScheduler true 2 none 0 0).1 (by omega)
  · exact ((sendNag_spec emptyScheduler true 10 none 0 0).2 (by omega) (by omega)).1
  · exact ((sendNag_spec emptyScheduler true 10 none 0 0).2 (by omega) (by omega)).2 rfl

/- ===================== C10 ===================== -/

/-- C10: without notification permission, startNagNotifications returns
before touching anything: no nag-start delay is armed, no interval started,
and a nag chain armed or looping from an earlier call survives, because the
permission check precedes the teardown call. -/
theorem startNagNotifications_noPermission (st : SchedulerState) (msg : Option String) :
    startNagNotifications st false msg = st := rfl

/- ===================== lastN lemmas ===================== -/

theorem lastN_length (n : Nat) (l : List α) : (lastN n l).length = min n l.length := by
  simp [lastN]
  omega

theorem lastN_length_le (n : Nat) (l : List α) : (lastN n l).length ≤ n := by
  rw [lastN_length]
  omega

theorem lastN_suffix (n : Nat) (l : List α) : lastN n l <:+ l :=
  List.drop_suffix _ l

theorem lastN_of_length_le (n : Nat) (l : List α) (h : l.length ≤ n) : lastN n l = l := by
  unfold lastN
  rw [Nat.sub_eq_zero_of_le h, List.drop_zero]

theorem lastN_append_single (n : Nat) (l : List α) (a : α) (hn : 1 ≤ n) :
    lastN n (l ++ [a]) = l.drop (l.length + 1 - n) ++ [a] := by
  unfold lastN
  rw [List.length_append]
  simp only [List.length_cons, List.length_nil]
  rw [List.drop_append_of_le_length (by omega)]

/- ===================== C6 ===================== -/

/-- C6: getTodayMessages returns at most 20 messages; it is exactly the
trailing slice (most recent last) of the concatenation of the messages of
the sessions timestamped on the current calendar day, of length
min 20 (total); every returned message comes from a session of that day. -/
theorem getTodayMessages_spec (data : UserData) (today : Int) :
    (getTodayMessages data today).length ≤ 20 ∧
    (getTodayMessages data today).length
      = min 20 ((data.sessions.filter (fun s => s.day == today)).flatMap
          (fun s => s.messages)).length ∧
    (getTodayMessages data today
      <:+ (data.sessions.filter (fun s => s.day == today)).flatMap (fun s => s.messages)) ∧
    (∀ msg ∈ getTodayMessages data today,
      ∃ s ∈ data.sessions, s.day = today ∧ msg ∈ s.messages) := by
  refine ⟨lastN_length_le _ _, lastN_length _ _, lastN_suffix _ _, ?_⟩
  intro msg hmsg
  have hmem : msg ∈ (data.sessions.filter (fun s => s.day == today)).flatMap
      (fun s => s.messages) :=
    (lastN_suffix _ _).subset hmsg
  rw [List.mem_flatMap] at hmem
  obtain ⟨s, hs, hm⟩ := hmem
  rw [List.mem_filter] at hs
  exact ⟨s, hs.1, by simpa using hs.2, hm⟩

/-- A message and a record with one session today (day 5) and one yesterday. -/
def exMsgA : ChatMessage := { role := Role.user, content := "hello" }

def exMsgB : ChatMessage := { role := Role.assistant, content := "reply" }

def exTodayRecord : UserData :=
  { createDefaultUserData "u1" 5 "t" with
    sessions :=
      [ { id := "s1", day := 5, source := Source.web, messages := [exMsgA] }
      , { id := "s2", day := 4, source := Source.web, messages := [exMsgB] } ] }

/-- C6 witness: the concrete record with a session today and one yesterday. -/
theorem getTodayMessages_spec_witness :
    (getTodayMessages exTodayRecord 5).length ≤ 20 ∧
    (∃ s ∈ exTodayRecord.sessions, s.day = 5 ∧ exMsgA ∈ s.messages) := by
  have h := getTodayMessages_spec exTodayRecord 5
  exact ⟨h.1, h.2.2.2 exMsgA (by decide)⟩

/- ===================== appendToSessions lemmas ===================== -/

theorem matchesDaySrc_set_messages (today : Int) (src : Source) (s : Session)
    (ms : List ChatMessage) :
    matchesDaySrc today src { s with messages := ms } = matchesDaySrc today src s := rfl

theorem findIndex_eq_none (p : α → Bool) (l : List α) (h : ∀ x ∈ l, p x = false) :
    findIndex p l = none := by
  induction l with
  | nil => rfl
  | cons x xs ih =>
    simp [findIndex, h x (List.mem_cons_self x xs),
      ih (fun y hy => h y (List.mem_cons_of_mem x hy))]

theorem appendToSessions_cons (s : Session) (ss : List Session) (m : ChatMessage)
    (src : Source) (today : Int) (newId : String) :
    appendToSessions (s :: ss) m src today newId =
      if matchesDaySrc today src s then { s with messages := s.messages ++ [m] } :: ss
      else s :: appendToSessions ss m src today newId := by
  by_cases h : matchesDaySrc today src s
  · simp [appendToSessions, findIndex, h, modifyAt]
  · cases hfi : findIndex (matchesDaySrc today src) ss with
    | none => simp [appendToSessions, findIndex, h, hfi]
    | some i => simp [appendToSessions, findIndex, h, hfi, modifyAt]

theorem appendToSessions_of_countP_zero (ss : List Session) (m : ChatMessage)
    (src : Source) (today : Int) (newId : String)
    (hc : ss.countP (matchesDaySrc today src) = 0) :
    appendToSessions ss m src today newId
      = ss ++ [{ id := newId, day := today, source := src, messages := [m] }] := by
  have hall : ∀ x ∈ ss, matchesDaySrc today src x = false := fun x hx =>
    Bool.not_eq_true _ |>.mp (List.countP_eq_zero.mp hc x hx)
  unfold appendToSessions
  rw [findIndex_eq_none _ _ hall]

theorem appendToSessions_merge (ss : List Session) (m : ChatMessage) (src : Source)
    (today : Int) (newId : String)
    (hc : ss.countP (matchesDaySrc today src) = 1) :
    (appendToSessions ss m src today newId).countP (matchesDaySrc today src) = 1 ∧
    (appendToSessions ss m src today newId).length = ss.length ∧
    ∀ s1 ∈ appendToSessions ss m src today newId, matchesDaySrc today src s1 = true →
      ∃ s0, s0 ∈ ss ∧ matchesDaySrc today src s0 = true ∧
        s1 = { s0 with messages := s0.messages ++ [m] } := by
  induction ss with
  | nil => simp at hc
  | cons s ss ih =>
    rw [appendToSessions_cons]
    by_cases h : matchesDaySrc today src s = true
    · rw [if_pos h]
      have hc0 : ss.countP (matchesDaySrc today src) = 0 := by
        rw [List.countP_cons, if_pos h] at hc
        omega
      refine ⟨?_, by simp, ?_⟩
      · rw [List.countP_cons, matchesDaySrc_set_messages, if_pos h, hc0]
      · intro s1 hs1 hp1
        rcases List.mem_cons.mp hs1 with rfl | hmem
        · exact ⟨s, List.mem_cons_self s ss, h, rfl⟩
        · exact absurd hp1 (List.countP_eq_zero.mp hc0 s1 hmem)
    · rw [if_neg h]
      have hps : matchesDaySrc today src s = false := Bool.not_eq_true _ |>.mp h
      have hc1 : ss.countP (matchesDaySrc today src) = 1 := by
        rw [List.countP_cons, if_neg h] at hc
        omega
      obtain ⟨ih1, ih2, ih3⟩ := ih hc1
      refine ⟨?_, by simp [ih2], ?_⟩
      · rw [List.countP_cons, if_neg h, ih1]
      · intro s1 hs1 hp1
        rcases List.mem_cons.mp hs1 with rfl | hmem
        · exact absurd hp1 (by simp [hps])
        · obtain ⟨s0, h0mem, h0p, h0eq⟩ := ih3 s1 hmem hp1
          exact ⟨s0, List.mem_cons_of_mem s h0mem, h0p, h0eq⟩

/-- One appendMessage call on a record respecting the session invariants:
afterwards exactly one session matches (today, source), the 30-bound still
holds, and every matching session either extends a previously matching one
by the message or is the freshly created singleton session. -/
theorem appendMessage_step (data : UserData) (m : ChatMessage) (src : Source)
    (today : Int) (newId : String)
    (hc : data.sessions.countP (matchesDaySrc today src) ≤ 1)
    (hlen : data.sessions.length ≤ 30) :
    (appendMessage data m src today newId).sessions.countP (matchesDaySrc today src) = 1 ∧
    (appendMessage data m src today newId).sessions.length ≤ 30 ∧
    ∀ s1 ∈ (appendMessage data m src today newId).sessions,
      matchesDaySrc today src s1 = true →
      (∃ s0, s0 ∈ data.sessions ∧ matchesDaySrc today src s0 = true ∧
        s1.messages = s0.messages ++ [m]) ∨ s1.messages = [m] := by
  rcases Nat.le_one_iff_eq_zero_or_eq_one.mp hc with hc0 | hc1
  · have hap := appendToSessions_of_countP_zero data.sessions m src today newId hc0
    have hsess : (appendMessage data m src today newId).sessions
        = data.sessions.drop (data.sessions.length + 1 - 30)
          ++ [{ id := newId, day := today, source := src, messages := [m] }] := by
      show lastN 30 _ = _
      rw [hap, lastN_append_single 30 _ _ (by omega)]
    have hdrop : (data.sessions.drop (data.sessions.length + 1 - 30)).countP
        (matchesDaySrc today src) = 0 :=
      Nat.le_zero.mp (hc0 ▸ (List.drop_sublist _ _).countP_le (matchesDaySrc today src))
    refine ⟨?_, lastN_length_le _ _, ?_⟩
    · rw [hsess, List.countP_append, hdrop]
      simp [matchesDaySrc]
    · intro s1 hs1 hp1
      rw [hsess] at hs1
      rcases List.mem_append.mp hs1 with hmem | hmem
      · exact absurd hp1
          (List.countP_eq_zero.mp hc0 s1 ((List.drop_sublist _ _).subset hmem))
      · right
        rw [List.mem_singleton.mp hmem]
  · obtain ⟨h1, h2, h3⟩ := appendToSessions_merge data.sessions m src today newId hc1
    have hsess : (appendMessage data m src today newId).sessions
        = appendToSessions data.sessions m src today newId := by
      show lastN 30 _ = _
      exact lastN_of_length_le _ _ (h2 ▸ hlen)
    refine ⟨by rw [hsess]; exact h1, by rw [hsess, h2]; exact hlen, ?_⟩
    intro s1 hs1 hp1
    rw [hsess] at hs1
    obtain ⟨s0, h0mem, h0p, h0eq⟩ := h3 s1 hs1 hp1
    exact Or.inl ⟨s0, h0mem, h0p, by rw [h0eq]⟩

/- ===================== C5 ===================== -/

/-- 31 appendMessage calls on 31 distinct consecutive days (1 to 31) from a
fresh record; every call creates a new session. -/
def append31 : UserData :=
  (List.range 31).foldl
    (fun d i => appendMessage d { role := Role.user, content := "hi" } Source.web
      ((i : Int) + 1) (toString i))
    (createDefaultUserData "u" 0 "2024")

/-- C5: appendMessage keeps the session list within the 30 bound; an append
that would create a 31st session keeps exactly the 30 most recent ones,
evicting the frontmost; 31 appends creating distinct sessions leave exactly
the 30 most recently created ones (days 2 to 31 of the 31 created). -/
theorem appendMessage_bound (data : UserData) (m : ChatMessage) (src : Source)
    (today : Int) (newId : String) :
    (data.sessions.length ≤ 30 → (appendMessage data m src today newId).sessions.length ≤ 30) ∧
    (data.sessions.length = 30 →
      data.sessions.countP (matchesDaySrc today src) = 0 →
      (appendMessage data m src today newId).sessions
        = data.sessions.drop 1
            ++ [{ id := newId, day := today, source := src, messages := [m] }]) ∧
    (append31.sessions.map (fun s => s.day) = (List.range 30).map (fun i => (i : Int) + 2) ∧
      append31.sessions.length = 30) := by
  refine ⟨fun _ => lastN_length_le _ _, ?_, by decide, by decide⟩
  intro hlen hc0
  show lastN 30 _ = _
  rw [appendToSessions_of_countP_zero data.sessions m src today newId hc0,
    lastN_append_single 30 _ _ (by omega), hlen]

/-- A record holding 30 sessions, none of them matching day 5 on the web
channel. -/
def ex30Record : UserData :=
  { createDefaultUserData "u1" 5 "t" with
    sessions := (List.range 30).map (fun i =>
      { id := toString i, day := (i : Int) - 100, source := Source.web, messages := [] }) }

/-- C5 witness: an append creating a 31st session on the concrete 30-session
record evicts exactly the frontmost session. -/
theorem appendMessage_bound_witness :
    (appendMessage ex30Record exMsgA Source.web 5 "s31").sessions.length ≤ 30 ∧
    (appendMessage ex30Record exMsgA Source.web 5 "s31").sessions
      = ex30Record.sessions.drop 1
          ++ [{ id := "s31", day := 5, source := Source.web, messages := [exMsgA] }] := by
  have h := appendMessage_bound ex30Record exMsgA Source.web 5 "s31"
  exact ⟨h.1 (by decide), h.2.1 (by decide) (by decide)⟩

/- ===================== C4 ===================== -/

/-- C4: two appendMessage calls on the same day with the same source, on a
record satisfying the invariants (at most one session per (day, source)
pair, at most 30 sessions), leave exactly one session for that pair, and
every such session holds both messages in order at its end; a call finding
no matching session appends a fresh session holding only its message. -/
theorem appendMessage_same_day_merge (data : UserData) (m1 m2 : ChatMessage) (src : Source)
    (today : Int) (id1 id2 : String)
    (hc : data.sessions.countP (matchesDaySrc today src) ≤ 1)
    (hlen : data.sessions.length ≤ 30) :
    ((appendMessage (appendMessage data m1 src today id1) m2 src today id2).sessions.countP
        (matchesDaySrc today src) = 1) ∧
    (∀ s ∈ (appendMessage (appendMessage data m1 src today id1) m2 src today id2).sessions,
        matchesDaySrc today src s = true → ∃ pre, s.messages = pre ++ [m1, m2]) ∧
    (data.sessions.countP (matchesDaySrc today src) = 0 →
      (appendMessage data m1 src today id1).sessions.getLast?
        = some { id := id1, day := today, source := src, messages := [m1] }) := by
  obtain ⟨h1, h2, h3⟩ := appendMessage_step data m1 src today id1 hc hlen
  obtain ⟨g1, g2, g3⟩ :=
    appendToSessions_merge (appendMessage data m1 src today id1).sessions m2 src today id2 h1
  have hr2 : (appendMessage (appendMessage data m1 src today id1) m2 src today id2).sessions
      = appendToSessions (appendMessage data m1 src today id1).sessions m2 src today id2 := by
    show lastN 30 _ = _
    exact lastN_of_length_le _ _ (g2 ▸ h2)
  refine ⟨by rw [hr2]; exact g1, ?_, ?_⟩
  · intro s hs hps
    rw [hr2] at hs
    obtain ⟨s1, hs1mem, hs1p, rfl⟩ := g3 s hs hps
    rcases h3 s1 hs1mem hs1p with ⟨s0, _, _, hmsg⟩ | hmsg
    · exact ⟨s0.messages, by simp [hmsg]⟩
    · exact ⟨[], by simp [hmsg]⟩
  · intro hc0
    show (lastN 30 _).getLast? = _
    rw [appendToSessions_of_countP_zero data.sessions m1 src today id1 hc0,
      lastN_append_single 30 _ _ (by omega), List.getLast?_concat]

/-- A fresh record with no sessions, created on day 5. -/
def exEmptyRecord : UserData := createDefaultUserData "u1" 5 "2024-05-05T00:00:00.000Z"

/-- C4 witness: two same-day web appends on a fresh record yield one session
holding both messages in order. -/
theorem appendMessage_same_day_merge_witness :
    ((appendMessage (appendMessage exEmptyRecord exMsgA Source.web 5 "s1")
        exMsgB Source.web 5 "s2").sessions.countP (matchesDaySrc 5 Source.web) = 1) ∧
    (∃ pre, ({ id := "s1"
               day := 5
               source := Source.web
               messages := [exMsgA, exMsgB] } : Session).messages
        = pre ++ [exMsgA, exMsgB]) ∧
    ((appendMessage exEmptyRecord exMsgA Source.web 5 "s1").sessions.getLast?
      = some { id := "s1", day := 5, source := Source.web, messages := [exMsgA] }) := by
  have h := appendMessage_same_day_merge exEmptyRecord exMsgA exMsgB Source.web 5 "s1" "s2"
    (by decide) (by decide)
  exact ⟨h.1,
    h.2.1 ⟨"s1", 5, Source.web, [exMsgA, exMsgB]⟩ (by decide) (by decide),
    h.2.2 (by decide)⟩

/- ===================== C3 ===================== -/

/-- A sequence of addStudyTime calls; each call carries its calendar day,
its minutes and its category. -/
def runStudyCalls (r : UserData) (calls : List (Int × Nat × String)) : UserData :=
  calls.foldl (fun acc c => addStudyTime acc c.2.1 c.2.2 c.1) r

/-- Length of the run of consecutive active days continuing day d, reading
the earlier days most-recent-first; a repeat of the current day is skipped,
the day before extends the run, anything else ends it. -/
def runLen : Int → List Int → Nat
  | _, [] => 0
  | d, e :: rest =>
    if e = d then runLen d rest
    else if e + 1 = d then 1 + runLen e rest
    else 0

theorem runLen_cons (d e : Int) (rest : List Int) :
    runLen d (e :: rest)
      = if e = d then runLen d rest
        else if e + 1 = d then 1 + runLen e rest
        else 0 := rfl

/-- Length of the maximal trailing run of consecutive active days ending at
the last day of the list. -/
def trailingRun (l : List Int) : Nat :=
  match l.reverse with
  | [] => 0
  | d :: rest => 1 + runLen d rest

theorem runStudyCalls_streaks_invariant (calls : List (Int × Nat × String)) (r : UserData)
    (hist : List Int)
    (hhead : hist.head? = some r.stats.lastActiveDate)
    (hstreak : r.stats.streaks = 1 + runLen r.stats.lastActiveDate hist.tail) :
    ((calls.map (fun c => c.1)).reverse ++ hist).head?
        = some (runStudyCalls r calls).stats.lastActiveDate ∧
    (runStudyCalls r calls).stats.streaks
      = 1 + runLen (runStudyCalls r calls).stats.lastActiveDate
            ((calls.map (fun c => c.1)).reverse ++ hist).tail := by
  induction calls generalizing r hist with
  | nil =>
    exact ⟨by simpa [runStudyCalls] using hhead, by simpa [runStudyCalls] using hstreak⟩
  | cons c cs ih =>
    obtain ⟨la, tl, rfl⟩ : ∃ la tl, hist = la :: tl := by
      cases hist with
      | nil => simp at hhead
      | cons a t => exact ⟨a, t, rfl⟩
    have hla : la = r.stats.lastActiveDate := by simpa using hhead
    subst hla
    have hstreakT : r.stats.streaks = 1 + runLen r.stats.lastActiveDate tl := by
      simpa using hstreak
    have hrun : runStudyCalls r (c :: cs)
        = runStudyCalls (addStudyTime r c.2.1 c.2.2 c.1) cs := rfl
    have hstep1 : (addStudyTime r c.2.1 c.2.2 c.1).stats.lastActiveDate = c.1 := rfl
    have hstep2 : (addStudyTime r c.2.1 c.2.2 c.1).stats.streaks
        = 1 + runLen c.1 (r.stats.lastActiveDate :: tl) := by
      by_cases h1 : r.stats.lastActiveDate = c.1 - 1
      · have hne : ¬(r.stats.lastActiveDate = c.1) := by omega
        have heq : (addStudyTime r c.2.1 c.2.2 c.1).stats.streaks = r.stats.streaks + 1 := by
          simp [addStudyTime, h1]
        rw [heq, hstreakT, runLen_cons, if_neg hne, if_pos (by omega)]
        omega
      · by_cases h2 : r.stats.lastActiveDate = c.1
        · have h1b : ¬((c.1 : Int) = c.1 - 1) := by omega
          have heq : (addStudyTime r c.2.1 c.2.2 c.1).stats.streaks = r.stats.streaks := by
            simp [addStudyTime, h1, h2, h1b]
          rw [heq, hstreakT, runLen_cons, if_pos h2, h2]
        · have heq : (addStudyTime r c.2.1 c.2.2 c.1).stats.streaks = 1 := by
            simp [addStudyTime, h1, h2]
          rw [heq, runLen_cons, if_neg h2, if_neg (by omega)]
    have hmain := ih (addStudyTime r c.2.1 c.2.2 c.1) (c.1 :: r.stats.lastActiveDate :: tl)
      (by rw [List.head?, hstep1]) (by rw [hstep1, List.tail_cons]; exact hstep2)
    rw [hrun]
    have hlist : ((c :: cs).map (fun x => x.1)).reverse ++ r.stats.lastActiveDate :: tl
        = (cs.map (fun x => x.1)).reverse ++ c.1 :: r.stats.lastActiveDate :: tl := by
      simp
    rw [hlist]
    exact hmain

/-- C3 amended: starting from a freshly created record, for any nonempty
nondecreasing sequence of addStudyTime calls whose first call is not on the
creation day, the final streak equals the length of the maximal trailing
run of consecutive active days ending at the last call, and the final
lastActiveDate is the last call day; moreover, after any call separated
from its predecessor by a gap of two or more days, the streak is 1. -/
theorem runStudyCalls_trailingRun (uid nowIso : String) (C : Int)
    (c : Int × Nat × String) (rest : List (Int × Nat × String))
    (hmono : List.Chain' (fun a b => a ≤ b) ((c :: rest).map (fun x => x.1)))
    (hfirst : c.1 ≠ C) :
    ((runStudyCalls (createDefaultUserData uid C nowIso) (c :: rest)).stats.streaks
        = trailingRun ((c :: rest).map (fun x => x.1))) ∧
    (((c :: rest).map (fun x => x.1)).getLast?
        = some (runStudyCalls
            (createDefaultUserData uid C nowIso) (c :: rest)).stats.lastActiveDate) ∧
    (∀ (r : UserData) (mi1 mi2 : Nat) (cat1 cat2 : String) (d e : Int), d + 2 ≤ e →
      (addStudyTime (addStudyTime r mi1 cat1 d) mi2 cat2 e).stats.streaks = 1) := by
  have hr1last : (addStudyTime (createDefaultUserData uid C nowIso)
      c.2.1 c.2.2 c.1).stats.lastActiveDate = c.1 := rfl
  have hr1streak : (addStudyTime (createDefaultUserData uid C nowIso)
      c.2.1 c.2.2 c.1).stats.streaks = 1 := by
    by_cases h1 : C = c.1 - 1
    · simp [addStudyTime, createDefaultUserData, h1]
    · simp [addStudyTime, createDefaultUserData, h1, Ne.symm hfirst]
  have hrun : runStudyCalls (createDefaultUserData uid C nowIso) (c :: rest)
      = runStudyCalls (addStudyTime (createDefaultUserData uid C nowIso) c.2.1 c.2.2 c.1)
          rest := rfl
  have hmain := runStudyCalls_streaks_invariant rest
    (addStudyTime (createDefaultUserData uid C nowIso) c.2.1 c.2.2 c.1) [c.1]
    (by rw [List.head?, hr1last]) (by rw [hr1last, hr1streak, List.tail_cons, runLen])
  have hlist : ((c :: rest).map (fun x => x.1)).reverse
      = (rest.map (fun x => x.1)).reverse ++ [c.1] := by simp
  refine ⟨?_, ?_, ?_⟩
  · obtain ⟨d0, L, hL⟩ : ∃ d0 L, (rest.map (fun x => x.1)).reverse ++ [c.1] = d0 :: L := by
      cases hrev : (rest.map (fun x => x.1)).reverse with
      | nil => exact ⟨c.1, [], by simp⟩
      | cons a t => exact ⟨a, t ++ [c.1], by simp⟩
    have hd0 : d0 = (runStudyCalls (addStudyTime (createDefaultUserData uid C nowIso)
        c.2.1 c.2.2 c.1) rest).stats.lastActiveDate := by
      have h := hmain.1
      rw [hL] at h
      simpa using h
    have htr : trailingRun ((c :: rest).map (fun x => x.1)) = 1 + runLen d0 L := by
      unfold trailingRun
      rw [hlist, hL]
    rw [hrun, hmain.2, hL, htr, hd0, List.tail_cons]
  · rw [hrun, ← List.head?_reverse, hlist]
    exact hmain.1
  · intro r mi1 mi2 cat1 cat2 d e hgap
    have hd1 : ¬((d : Int) = e - 1) := by omega
    have hd2 : ¬((d : Int) = e) := by omega
    simp [addStudyTime, hd1, hd2]

/-- C3 counterexample: a record created on day 0 whose first (and only)
addStudyTime call happens on the creation day keeps streaks = 0, while the
maximal trailing run of consecutive active days ending at that call is 1. -/
theorem runStudyCalls_trailingRun_counterexample :
    (createDefaultUserData "u1" 0 "t").stats.lastActiveDate = 0 ∧
    (runStudyCalls (createDefaultUserData "u1" 0 "t") [((0 : Int), 30, "study")]).stats.streaks
      = 0 ∧
    trailingRun ([((0 : Int), 30, "study")].map (fun x => x.1)) = 1 ∧
    ¬((runStudyCalls (createDefaultUserData "u1" 0 "t")
          [((0 : Int), 30, "study")]).stats.streaks
        = trailingRun ([((0 : Int), 30, "study")].map (fun x => x.1))) := by
  refine ⟨rfl, by decide, by decide, by decide⟩

/-- C3 witness: two calls on the two days after creation give streak 2, one
call after a two-day gap resets to 1. -/
theorem runStudyCalls_trailingRun_witness :
    ((runStudyCalls (createDefaultUserData "u1" 100 "t")
        [((101 : Int), 30, "study"), ((102 : Int), 20, "study")]).stats.streaks
      = trailingRun ([((101 : Int), 30, "study"), ((102 : Int), 20, "study")].map
          (fun x => x.1))) ∧
    (([((101 : Int), 30, "study"), ((102 : Int), 20, "study")].map (fun x => x.1)).getLast?
      = some (runStudyCalls (createDefaultUserData "u1" 100 "t")
          [((101 : Int), 30, "study"), ((102 : Int), 20, "study")]).stats.lastActiveDate) ∧
    (addStudyTime (addStudyTime exEmptyRecord 30 "study" 10) 20 "study" 12).stats.streaks
      = 1 := by
  have h := runStudyCalls_trailingRun "u1" "t" 100
    ((101 : Int), 30, "study") [((102 : Int), 20, "study")]
    (by simp) (by decide)
  exact ⟨h.1, h.2.1, h.2.2 exEmptyRecord 30 20 "study" "study" 10 12 (by omega)⟩

/- ===================== setTimer / schedule lemmas ===================== -/

theorem setTimer_nil (id : String) (t : Int) : setTimer [] id t = [(id, t)] := rfl

theorem setTimer_cons (p : String × Int) (rest : List (String × Int)) (id : String) (t : Int) :
    setTimer (p :: rest) id t
      = if p.1 == id then (id, t) :: rest else p :: setTimer rest id t := rfl

theorem find_setTimer_self (l : List (String × Int)) (id : String) (t : Int) :
    (setTimer l id t).find? (fun p => p.1 == id) = some (id, t) := by
  induction l with
  | nil => simp [setTimer_nil, List.find?]
  | cons p rest ih =>
    rw [setTimer_cons]
    by_cases h : (p.1 == id) = true
    · simp [h, List.find?]
    · have hf : (p.1 == id) = false := by simpa using h
      simp [hf, List.find?, ih]

theorem find_setTimer_other (l : List (String × Int)) (id idq : String) (t : Int)
    (hne : idq ≠ id) :
    (setTimer l id t).find? (fun p => p.1 == idq) = l.find? (fun p => p.1 == idq) := by
  have hq : ((id : String) == idq) = false := beq_eq_false_iff_ne.mpr (Ne.symm hne)
  induction l with
  | nil => simp [setTimer_nil, List.find?, hq]
  | cons p rest ih =>
    rw [setTimer_cons]
    by_cases h : (p.1 == id) = true
    · have hp : p.1 = id := by simpa using h
      simp [h, List.find?, hq, hp]
    · have hf : (p.1 == id) = false := by simpa using h
      by_cases h2 : (p.1 == idq) = true
      · simp [hf, List.find?, h2]
      · have hf2 : (p.1 == idq) = false := by simpa using h2
        simp [hf, List.find?, hf2, ih]

theorem lookupTimer_schedule_self (st : SchedulerState) (n : ScheduledNotification)
    (now : Int) (h : now ≤ n.scheduledAt) :
    lookupTimer (schedule st n now) n.id = some n.scheduledAt := by
  unfold schedule
  rw [if_neg (by omega)]
  unfold lookupTimer
  simp [find_setTimer_self]

theorem lookupTimer_schedule_other (st : SchedulerState) (n : ScheduledNotification)
    (now : Int) (idq : String) (hne : idq ≠ n.id) :
    lookupTimer (schedule st n now) idq = lookupTimer st idq := by
  unfold schedule
  by_cases hd : n.scheduledAt - now < 0
  · rw [if_pos hd]
  · rw [if_neg hd]
    unfold lookupTimer
    simp only
    rw [find_setTimer_other _ _ _ _ hne]

theorem schedule_nag (st : SchedulerState) (n : ScheduledNotification) (now : Int) :
    (schedule st n now).nagStartTimer = st.nagStartTimer ∧
    (schedule st n now).nagTimer = st.nagTimer := by
  unfold schedule
  split
  · exact ⟨rfl, rfl⟩
  · exact ⟨rfl, rfl⟩

theorem append_left_ne {a b : String} (h : a.length ≠ b.length) (i : String) :
    a ++ i ≠ b ++ i := by
  intro he
  apply h
  have hl := congrArg String.length he
  rw [String.length_append, String.length_append] at hl
  omega

/- ===================== C7 ===================== -/

/-- A task starting at 09:00 with a two-hour duration. -/
def exTask : UserTask :=
  ⟨"t1", "work", Category.study, some (9, 0), 120, TaskStatus.pending, "c"⟩

/-- A task with no startTime. -/
def exNoTimeTask : UserTask :=
  ⟨"t2", "free", Category.hobby, none, 30, TaskStatus.pending, "c"⟩

/-- C7 counterexample: at 10:00 (now = 36000000 ms after midnight) the 09:00
start instant of the task is past while its 11:00 end instant is still in
the future, yet scheduleTask returns without scheduling anything — in
particular no end notification — because the source returns early as soon
as the start instant is not in the future. -/
theorem scheduleTask_pastStart_counterexample :
    startInstant 0 9 0 ≤ 36000000 ∧
    36000000 < endInstant (startInstant 0 9 0) exTask.duration ∧
    scheduleTask emptyScheduler exTask 36000000 0 = emptyScheduler ∧
    lookupTimer (scheduleTask emptyScheduler exTask 36000000 0) ("end_" ++ exTask.id)
      = none := by
  refine ⟨by decide, by decide, by decide, by decide⟩

/-- C7 amended: a task without a startTime schedules nothing; a task whose
start instant is not in the future schedules nothing at all (even when its
end instant is still in the future); otherwise the start and end
notifications are scheduled at the start and start+duration instants, the
reminder is scheduled at start-5min exactly when that instant is still in
the future, and no other pending countdown is touched. -/
theorem scheduleTask_spec (st : SchedulerState) (task : UserTask) (now dayStart : Int) :
    (task.startTime = none → scheduleTask st task now dayStart = st) ∧
    (∀ hh mm : Nat, task.startTime = some (hh, mm) →
      (startInstant dayStart hh mm ≤ now → scheduleTask st task now dayStart = st) ∧
      (now < startInstant dayStart hh mm →
        lookupTimer (scheduleTask st task now dayStart) ("start_" ++ task.id)
          = some (startInstant dayStart hh mm) ∧
        lookupTimer (scheduleTask st task now dayStart) ("end_" ++ task.id)
          = some (endInstant (startInstant dayStart hh mm) task.duration) ∧
        (now < reminderInstant (startInstant dayStart hh mm) →
          lookupTimer (scheduleTask st task now dayStart) ("reminder_" ++ task.id)
            = some (reminderInstant (startInstant dayStart hh mm))) ∧
        (reminderInstant (startInstant dayStart hh mm) ≤ now →
          lookupTimer (scheduleTask st task now dayStart) ("reminder_" ++ task.id)
            = lookupTimer st ("reminder_" ++ task.id)) ∧
        (∀ idq : String, idq ≠ "start_" ++ task.id → idq ≠ "end_" ++ task.id →
          idq ≠ "reminder_" ++ task.id →
          lookupTimer (scheduleTask st task now dayStart) idq = lookupTimer st idq))) := by
  have hse : ("start_" ++ task.id) ≠ ("end_" ++ task.id) := append_left_ne (by decide) _
  have hre : ("reminder_" ++ task.id) ≠ ("end_" ++ task.id) := append_left_ne (by decide) _
  have hrs : ("reminder_" ++ task.id) ≠ ("start_" ++ task.id) := append_left_ne (by decide) _
  constructor
  · intro h0
    simp [scheduleTask, h0]
  · intro hh mm hsome
    constructor
    · intro hle
      simp [scheduleTask, hsome, if_pos hle]
    · intro hlt
      have hnle : ¬(startInstant dayStart hh mm ≤ now) := by omega
      have hred : scheduleTask st task now dayStart
          = schedule
              (schedule
                (if reminderInstant (startInstant dayStart hh mm) > now then
                  schedule st
                    (reminderNotif task (reminderInstant (startInstant dayStart hh mm))) now
                 else st)
                (startNotif task (startInstant dayStart hh mm)) now)
              (endNotif task (endInstant (startInstant dayStart hh mm) task.duration)) now := by
        simp [scheduleTask, hsome, if_neg hnle]
      refine ⟨?_, ?_, ?_, ?_, ?_⟩
      · rw [hred, lookupTimer_schedule_other _ _ _ _ hse]
        exact lookupTimer_schedule_self _ (startNotif task (startInstant dayStart hh mm)) now
          (show now ≤ startInstant dayStart hh mm by omega)
      · rw [hred]
        exact lookupTimer_schedule_self _
          (endNotif task (endInstant (startInstant dayStart hh mm) task.duration)) now
          (show now ≤ endInstant (startInstant dayStart hh mm) task.duration by
            unfold endInstant
            have hz : (0 : Int) ≤ (task.duration : Int) := Int.natCast_nonneg _
            omega)
      · intro hrem
        rw [hred, lookupTimer_schedule_other _ _ _ _ hre,
          lookupTimer_schedule_other _ _ _ _ hrs, if_pos hrem]
        exact lookupTimer_schedule_self _
          (reminderNotif task (reminderInstant (startInstant dayStart hh mm))) now
          (show now ≤ reminderInstant (startInstant dayStart hh mm) by omega)
      · intro hrem
        rw [hred, lookupTimer_schedule_other _ _ _ _ hre,
          lookupTimer_schedule_other _ _ _ _ hrs, if_neg (by omega)]
      · intro idq hq1 hq2 hq3
        rw [hred, lookupTimer_schedule_other _ _ _ _ hq2,
          lookupTimer_schedule_other _ _ _ _ hq1]
        by_cases hrem : reminderInstant (startInstant dayStart hh mm) > now
        · rw [if_pos hrem, lookupTimer_schedule_other _ _ _ _ hq3]
        · rw [if_neg hrem]

/-- C7 witness: scheduling the 09:00 task at midnight arms all three
notifications; the task without a startTime arms none. -/
theorem scheduleTask_spec_witness :
    lookupTimer (scheduleTask emptyScheduler exTask 0 0) ("start_" ++ exTask.id)
      = some (startInstant 0 9 0) ∧
    lookupTimer (scheduleTask emptyScheduler exTask 0 0) ("end_" ++ exTask.id)
      = some (endInstant (startInstant 0 9 0) exTask.duration) ∧
    lookupTimer (scheduleTask emptyScheduler exTask 0 0) ("reminder_" ++ exTask.id)
      = some (reminderInstant (startInstant 0 9 0)) ∧
    scheduleTask emptyScheduler exNoTimeTask 0 0 = emptyScheduler := by
  have h := ((scheduleTask_spec emptyScheduler exTask 0 0).2 9 0 rfl).2 (by decide)
  exact ⟨h.1, h.2.1, h.2.2.1 (by decide),
    (scheduleTask_spec emptyScheduler exNoTimeTask 0 0).1 rfl⟩

/- ===================== C8 ===================== -/

theorem scheduleTask_nag (st : SchedulerState) (task : UserTask) (now dayStart : Int) :
    (scheduleTask st task now dayStart).nagStartTimer = st.nagStartTimer ∧
    (scheduleTask st task now dayStart).nagTimer = st.nagTimer := by
  cases hst : task.startTime with
  | none => simp [scheduleTask, hst]
  | some p =>
    obtain ⟨hh, mm⟩ := p
    by_cases hle : startInstant dayStart hh mm ≤ now
    · simp [scheduleTask, hst, if_pos hle]
    · have hred : scheduleTask st task now dayStart
          = schedule
              (schedule
                (if reminderInstant (startInstant dayStart hh mm) > now then
                  schedule st
                    (reminderNotif task (reminderInstant (startInstant dayStart hh mm))) now
                 else st)
                (startNotif task (startInstant dayStart hh mm)) now)
              (endNotif task (endInstant (startInstant dayStart hh mm) task.duration)) now := by
        simp [scheduleTask, hst, if_neg hle]
      rw [hred]
      constructor
      · rw [(schedule_nag _ _ _).1, (schedule_nag _ _ _).1]
        by_cases hrem : reminderInstant (startInstant dayStart hh mm) > now
        · rw [if_pos hrem, (schedule_nag _ _ _).1]
        · rw [if_neg hrem]
      · rw [(schedule_nag _ _ _).2, (schedule_nag _ _ _).2]
        by_cases hrem : reminderInstant (startInstant dayStart hh mm) > now
        · rw [if_pos hrem, (schedule_nag _ _ _).2]
        · rw [if_neg hrem]

theorem scheduleAllTasks_nag (st : SchedulerState) (tasks : List UserTask)
    (now dayStart : Int) :
    (scheduleAllTasks st tasks now dayStart).nagStartTimer = st.nagStartTimer ∧
    (scheduleAllTasks st tasks now dayStart).nagTimer = st.nagTimer := by
  have hfold : ∀ (ts : List UserTask) (s : SchedulerState),
      (ts.foldl (fun acc task => scheduleTask acc task now dayStart) s).nagStartTimer
        = s.nagStartTimer ∧
      (ts.foldl (fun acc task => scheduleTask acc task now dayStart) s).nagTimer
        = s.nagTimer := by
    intro ts
    induction ts with
    | nil => intro s; exact ⟨rfl, rfl⟩
    | cons t ts ih =>
      intro s
      rw [List.foldl_cons]
      constructor
      · rw [(ih _).1, (scheduleTask_nag _ _ _ _).1]
      · rw [(ih _).2, (scheduleTask_nag _ _ _ _).2]
  exact ⟨(hfold tasks _).1, (hfold tasks _).2⟩

theorem find_filter_taskKey (l : List (String × Int)) (idq : String)
    (h : isTaskKey idq = true) :
    (l.filter (fun p => !isTaskKey p.1)).find? (fun p => p.1 == idq) = none := by
  rw [List.find?_eq_none]
  intro x hx hbeq
  rw [List.mem_filter] at hx
  have hxq : x.1 = idq := by simpa using hbeq
  have hxf : isTaskKey x.1 = false := by simpa using hx.2
  rw [hxq, h] at hxf
  exact absurd hxf (by simp)

theorem find_filter_notTaskKey (l : List (String × Int)) (idq : String)
    (h : isTaskKey idq = false) :
    (l.filter (fun p => !isTaskKey p.1)).find? (fun p => p.1 == idq)
      = l.find? (fun p => p.1 == idq) := by
  induction l with
  | nil => rfl
  | cons x xs ih =>
    by_cases hk : isTaskKey x.1 = true
    · have hne : (x.1 == idq) = false := by
        rw [beq_eq_false_iff_ne]
        intro he
        rw [he, h] at hk
        exact Bool.false_ne_true hk
      simp [List.filter_cons, hk, List.find?, hne, ih]
    · have hk2 : isTaskKey x.1 = false := by simpa using hk
      by_cases hq : (x.1 == idq) = true
      · simp [List.filter_cons, hk2, List.find?, hq]
      · have hq2 : (x.1 == idq) = false := by simpa using hq
        simp [List.filter_cons, hk2, List.find?, hq2, ih]

/-- A scheduler whose nag escalation is in the looping state. -/
def nagActiveScheduler : SchedulerState :=
  { timers := [], nagStartTimer := none, nagTimer := some none }

/-- C8: scheduleAllTasks never touches the nag handles; with an empty task
list it cancels exactly the pending countdowns whose ids carry a
reminder_/start_/end_ prefix, leaving every other pending countdown
unchanged; concretely, scheduleTask on a scheduler with a looping nag
followed by scheduleAllTasks([]) leaves no pending notification for the
task while the nag keeps running, and a nonempty task list is
re-scheduled. -/
theorem scheduleAllTasks_spec (st : SchedulerState) (tasks : List UserTask)
    (now dayStart : Int) :
    (scheduleAllTasks st tasks now dayStart).nagStartTimer = st.nagStartTimer ∧
    (scheduleAllTasks st tasks now dayStart).nagTimer = st.nagTimer ∧
    (∀ idq : String, isTaskKey idq = true →
      lookupTimer (scheduleAllTasks st [] now dayStart) idq = none) ∧
    (∀ idq : String, isTaskKey idq = false →
      lookupTimer (scheduleAllTasks st [] now dayStart) idq = lookupTimer st idq) ∧
    (lookupTimer (scheduleAllTasks (scheduleTask nagActiveScheduler exTask 0 0) [] 0 0)
        ("start_" ++ exTask.id) = none ∧
      lookupTimer (scheduleAllTasks (scheduleTask nagActiveScheduler exTask 0 0) [] 0 0)
        ("end_" ++ exTask.id) = none ∧
      lookupTimer (scheduleAllTasks (scheduleTask nagActiveScheduler exTask 0 0) [] 0 0)
        ("reminder_" ++ exTask.id) = none ∧
      (scheduleAllTasks (scheduleTask nagActiveScheduler exTask 0 0) [] 0 0).nagTimer
        = some none ∧
      lookupTimer (scheduleAllTasks emptyScheduler [exTask] 0 0) ("start_" ++ exTask.id)
        = some (startInstant 0 9 0)) := by
  have hcleared : scheduleAllTasks st [] now dayStart
      = { st with timers := st.timers.filter (fun p => !isTaskKey p.1) } := rfl
  refine ⟨(scheduleAllTasks_nag st tasks now dayStart).1,
    (scheduleAllTasks_nag st tasks now dayStart).2, ?_, ?_,
    by decide, by decide, by decide, by decide, by decide⟩
  · intro idq h
    rw [hcleared]
    unfold lookupTimer
    simp only
    rw [find_filter_taskKey _ _ h]
    rfl
  · intro idq h
    rw [hcleared]
    unfold lookupTimer
    simp only
    rw [find_filter_notTaskKey _ _ h]

/-- A scheduler with one task-derived and one foreign pending countdown and
an armed nag delay. -/
def mixedScheduler : SchedulerState :=
  { timers := [("start_t9", 10), ("other", 7)], nagStartTimer := some none, nagTimer := none }

/-- C8 witness: clearing the concrete mixed scheduler drops the task-derived
countdown, keeps the foreign one, and leaves the armed nag delay in place. -/
theorem scheduleAllTasks_spec_witness :
    (scheduleAllTasks mixedScheduler [] 0 0).nagStartTimer = some none ∧
    lookupTimer (scheduleAllTasks mixedScheduler [] 0 0) "start_t9" = none ∧
    lookupTimer (scheduleAllTasks mixedScheduler [] 0 0) "other"
      = lookupTimer mixedScheduler "other" := by
  have h := scheduleAllTasks_spec mixedScheduler [] 0 0
  exact ⟨h.1, h.2.2.1 "start_t9" (by decide), h.2.2.2.1 "other" (by decide)⟩
